import Mathlib

/-!
Shallow embedding of the subscription multiplexer (`GooglePubSub`, file
src/google-pubsub.ts) and the push-to-pull event bridge (`AsyncIterator`,
same file after the module boundary).  The engine is modelled for a single
derived physical-subscription name: every claim under study quantifies over
operations on one name, and entries for distinct names never interact in the
source (each map access is keyed by the one derived `subName`).

The source is single-threaded JavaScript with cooperative scheduling; the
only suspension point inside `subscribe` is `await this.getSubscription(...)`
(line 54).  We therefore split `subscribe` into its synchronous prefix
(`subscribeStep`, lines 46-53) and the post-await continuation
(`resolveStep`, lines 55-69), and let traces interleave continuations with
other operations exactly as the event loop can.
-/

namespace GPubSub

/-- Errors the engine can raise: `NoSubscriptionOfIdError` (google-pubsub.ts
line 5) and the runtime TypeError produced by reading `.length` of
`undefined` (see `resolveStep`). -/
inductive EErr where
  | noSuchListener
  | typeError
deriving DecidableEq, Repr

/-- One value of `googleSubName2GoogleSubAndClientIds[subName]`
(google-pubsub.ts lines 127-132): the ordered client-id list and whether the
`sub` / `messageHandler` / `errorHandler` fields are present (they are set
together, lines 63-68, so one flag models all three). -/
structure Entry where
  ids : List Nat
  attached : Bool
deriving DecidableEq, Repr

/-- The engine state, restricted to one derived physical-subscription name.
`records` models the keys of `clientId2GoogleSubNameAndClientCallback` whose
stored name is this one; `entry` models
`googleSubName2GoogleSubAndClientIds[subName]` (`none` = key absent);
`pending` holds the client ids whose `getSubscription` round trip (line 54)
has not yet resolved.  `attachCount` counts `sub.on('message', ...)` calls
(line 60), `detachCount` counts `sub.removeListener('message', ...)` calls
(line 98).  `upCount` / `downCount` are observers counting the transitions
of the registered-listener count from 0 to 1 and from 1 to 0. -/
structure EngineState where
  records : List Nat
  entry : Option Entry
  nextId : Nat
  pending : List Nat
  attachCount : Nat
  detachCount : Nat
  upCount : Nat
  downCount : Nat
deriving DecidableEq, Repr

/-- The engine's initial state (constructor, google-pubsub.ts lines 17-20). -/
def initE : EngineState :=
  { records := [], entry := none, nextId := 0, pending := [],
    attachCount := 0, detachCount := 0, upCount := 0, downCount := 0 }

/-- The ordered listener-id list of the entry (empty when the key is absent). -/
def entryIds (s : EngineState) : List Nat :=
  match s.entry with
  | none => []
  | some e => e.ids

/-- Number of listeners currently registered on the physical name. -/
def listenerCount (s : EngineState) : Nat := (entryIds s).length

/-- Events of an interleaved execution: the synchronous prefix of
`subscribe`, the resolution of a pending `getSubscription` round trip for
the subscribe call that allocated `id`, and a (synchronous) `unsubscribe`. -/
inductive EOp where
  | subscribe
  | resolve (id : Nat)
  | unsubscribe (id : Nat)
deriving DecidableEq, Repr

/-- Observable outcome of one event: the id allocated by `subscribe` and
whether a broker round trip was started (lines 48, 53-54); the settlement of
a pending subscribe promise (resolution value or rejection, lines 55-69);
the result of `unsubscribe` (normal return or thrown error, lines 86-111). -/
inductive EOutcome where
  | subscribed (id : Nat) (roundTripStarted : Bool)
  | settled (r : Except EErr Nat)
  | unsubbed (r : Except EErr Unit)
  | noop
deriving Repr

/-- Synchronous prefix of `GooglePubSub.subscribe` (google-pubsub.ts lines
46-53): allocate `id` from the counter, store the listener record, splice
`id` onto the entry's `ids` (creating the entry, keeping `...rest`, i.e. the
`sub`/handler fields, when it exists).  If listeners already existed the
promise resolves immediately with `id` (line 53); otherwise the round trip
of line 54 starts and the call is recorded as pending. -/
def subscribeStep (s : EngineState) : EngineState × EOutcome :=
  let id := s.nextId
  let oldIds := entryIds s
  let oldAttached := match s.entry with | none => false | some e => e.attached
  let s' : EngineState :=
    { s with
      records := s.records ++ [id],
      nextId := id + 1,
      entry := some { ids := oldIds ++ [id], attached := oldAttached },
      upCount := if oldIds.isEmpty then s.upCount + 1 else s.upCount }
  if oldIds.length > 0 then
    (s', .subscribed id false)
  else
    ({ s' with pending := s.pending ++ [id] }, .subscribed id true)

/-- Continuation of `GooglePubSub.subscribe` after `getSubscription`
resolves (google-pubsub.ts lines 55-69), for the pending call that allocated
`id`.  The code re-reads the entry (`|| {}`, line 55) and tests
`!googleSubAndClientIds.ids.length` (line 57): when the entry key is absent
that read is `undefined.length` and throws a TypeError, rejecting the
subscribe promise.  When the entry exists with a non-empty list, the message
and error handlers are attached (`sub.on`, lines 60-61, counted once per
execution of this continuation) and the entry is overwritten with the
`sub`/handler fields (lines 63-68).  A `resolve` for an id that is not
pending is not an event the event loop can produce; it is a no-op. -/
def resolveStep (s : EngineState) (id : Nat) : EngineState × EOutcome :=
  if id ∈ s.pending then
    let s' := { s with pending := s.pending.erase id }
    match s.entry with
    | none => (s', .settled (.error .typeError))
    | some e =>
      if e.ids.isEmpty then
        (s', .settled (.ok id))
      else
        ({ s' with
            entry := some { ids := e.ids, attached := true },
            attachCount := s.attachCount + 1 },
         .settled (.ok id))
  else (s, .noop)

/-- `GooglePubSub.unsubscribe` (google-pubsub.ts lines 86-111).  An id with
no record throws `NoSubscriptionOfIdError` (line 88), as does a record whose
entry key is absent (line 92); both throw before any mutation.  With exactly
one remaining id the handlers are detached when (and only when) they were
attached (lines 94-100) and the entry key is deleted (line 102); otherwise
the first occurrence of `id` is spliced out of `ids` (lines 104-108, a no-op
when `indexOf` is -1).  The listener record is deleted last (line 110). -/
def unsubscribeStep (s : EngineState) (id : Nat) : EngineState × EOutcome :=
  if id ∈ s.records then
    match s.entry with
    | none => (s, .unsubbed (.error .noSuchListener))
    | some e =>
      if e.ids.length = 1 then
        ({ s with
            records := s.records.erase id,
            entry := none,
            detachCount := if e.attached then s.detachCount + 1 else s.detachCount,
            downCount := s.downCount + 1 },
         .unsubbed (.ok ()))
      else
        ({ s with
            records := s.records.erase id,
            entry := some { ids := e.ids.erase id, attached := e.attached } },
         .unsubbed (.ok ()))
  else (s, .unsubbed (.error .noSuchListener))

/-- One interleaving event. -/
def stepE (s : EngineState) : EOp → EngineState × EOutcome
  | .subscribe => subscribeStep s
  | .resolve id => resolveStep s id
  | .unsubscribe id => unsubscribeStep s id

/-- Run a trace of events from a state. -/
def stepsE (s : EngineState) : List EOp → EngineState
  | [] => s
  | op :: ops => stepsE (stepE s op).1 ops

/-- Run a trace of events from the initial engine state. -/
def runE (ops : List EOp) : EngineState := stepsE initE ops

/-- Run a trace, also collecting the outcome of every event. -/
def stepsEO (s : EngineState) : List EOp → EngineState × List EOutcome
  | [] => (s, [])
  | op :: ops =>
    let r := stepE s op
    let rest := stepsEO r.1 ops
    (rest.1, r.2 :: rest.2)

/-!
The broker message handler built by `GooglePubSub.getMessageHandler`
(google-pubsub.ts lines 72-84).  One invocation acknowledges the message,
awaits the common-message transform, re-reads the entry's current id list
(`|| {}` with `ids = []` default, line 77), and invokes each listed
listener's stored callback with the transformed value.  Each listener id has
exactly one callback, stored immutably at subscribe time (line 49), so an
invocation of listener `i`'s callback with value `v` is recorded as the
event `deliver i v`.  A throwing or rejecting transform rejects the async
handler's promise: there is no try/catch and no log call on this path (the
only `console.error` in the engine is the `error`-event handler, line 59),
hence `logged` is always empty and a transform error surfaces as
`outcome = .error`.
-/

/-- Observable events of one message-handler invocation, in program order:
the `message.ack()` call (line 75), the start of the common-message
transform (line 76), and one delivery callback invocation (lines 78-81). -/
inductive HEv where
  | ack
  | transformRun
  | deliver (listener : Nat) (val : Nat)
deriving DecidableEq, Repr

/-- Result of one message-handler invocation: the ordered event list, the
settlement of the handler's promise, and the errors the handler logged. -/
structure HRes where
  events : List HEv
  outcome : Except Nat Unit
  logged : List Nat
deriving Repr

/-- `handleMessage` (google-pubsub.ts lines 74-82) with common-message
transform `f`, run against the engine state `s` current when the transform
settles (the id list is read after the `await`, line 77), on message `msg`.
Messages and transformed values are coded as naturals; transform failure is
the `Except.error` case of `f`. -/
def handleMessage (f : Nat → Except Nat Nat) (s : EngineState) (msg : Nat) : HRes :=
  match f msg with
  | .ok v =>
    { events := [.ack, .transformRun] ++ (entryIds s).map (fun i => .deliver i v),
      outcome := .ok (),
      logged := [] }
  | .error e =>
    { events := [.ack, .transformRun], outcome := .error e, logged := [] }

/-!
The event bridge `AsyncIterator` (the module after google-pubsub.ts, lines
138-213 of the combined file).  Construction starts `subscribeAll` (line
145), a combined registration whose settlement is either the list of
subscription ids or the first registration error; every method body runs
inside `this.allSubscribed.then(...)`, so on a rejected registration no
method body ever runs and each returned promise rejects with the
registration error (for `pushValue` the rejection is unobserved and the
state is untouched).  Pull resolvers are coded by tokens; `{value: v, done:
false}` results are coded by the value, and the terminal
`{value: undefined, done: true}` by the `closedDone` outcome.
-/

/-- The bridge's mutable state: `pullQueue` (pending pull resolver tokens),
`pushQueue` (buffered pushed values), and the `listening` flag
(async-iterator lines 141-143). -/
structure BState where
  pullQueue : List Nat
  pushQueue : List Nat
  listening : Bool
deriving DecidableEq, Repr

/-- Bridge state at construction (async-iterator lines 141-143). -/
def initB : BState :=
  { pullQueue := [], pushQueue := [], listening := true }

/-- One bridge: the settlement of `allSubscribed` (registration error, or
the subscription ids the session holds) and the mutable state. -/
structure Bridge where
  reg : Except Nat (List Nat)
  st : BState
deriving Repr

/-- Bridge operations: a consumer `next()` call (with a fresh resolver
token), a push delivered by the engine (`pushValue`), `return()`, and
`throw(e)`. -/
inductive BOp where
  | next (t : Nat)
  | push (v : Nat)
  | ret
  | throwErr (e : Nat)
deriving DecidableEq, Repr

/-- Observable outcome of one bridge operation.  `regErr e`: the operation's
promise rejects with the registration error and its body never ran.
`pushed l`: the push resolved the pulls in `l` (token, value) now.
`gotValue v`: `next()` resolved immediately with `{value: v, done: false}`.
`willWait t`: `next()` parked resolver `t` on the pull queue.  `closedDone
dereg doneTokens`: the operation returned `{value: undefined, done: true}`,
deregistering the ids `dereg` and resolving the parked tokens `doneTokens`
with the terminal value.  `threw e dereg doneTokens`: same teardown but the
returned promise rejects with `e` (async-iterator lines 160-165). -/
inductive BOut where
  | regErr (e : Nat)
  | pushed (resolvedNow : List (Nat × Nat))
  | gotValue (v : Nat)
  | willWait (t : Nat)
  | closedDone (dereg : List Nat) (doneTokens : List Nat)
  | threw (e : Nat) (dereg : List Nat) (doneTokens : List Nat)
deriving DecidableEq, Repr

/-- Body of `pushValue` (async-iterator lines 171-179): a non-empty pull
queue has its oldest resolver shifted and resolved with `{value, done:
false}`; otherwise the value is appended to the push queue.  There is no
`listening` test on this path. -/
def pushValue (s : BState) (v : Nat) : BState × List (Nat × Nat) :=
  match s.pullQueue with
  | t :: rest => ({ s with pullQueue := rest }, [(t, v)])
  | [] => ({ s with pushQueue := s.pushQueue ++ [v] }, [])

/-- Body of `pullValue` (async-iterator lines 181-190): a non-empty push
queue has its oldest value shifted and resolved immediately; otherwise the
new resolver is appended to the pull queue. -/
def pullValue (s : BState) (t : Nat) : BState × BOut :=
  match s.pushQueue with
  | v :: rest => ({ s with pushQueue := rest }, .gotValue v)
  | [] => ({ s with pullQueue := s.pullQueue ++ [t] }, .willWait t)

/-- `emptyQueue` (async-iterator lines 192-200): on a still-listening
session it clears the flag, unsubscribes every held id, resolves every
parked pull with the terminal value and truncates both queues; on a closed
session it does nothing.  Returns (new state, deregistered ids, tokens
resolved with the terminal value). -/
def emptyQueue (subs : List Nat) (s : BState) : BState × List Nat × List Nat :=
  if s.listening then
    ({ pullQueue := [], pushQueue := [], listening := false }, subs, s.pullQueue)
  else
    (s, [], [])

/-- One bridge operation (async-iterator lines 149-179).  Every method runs
its body only after `allSubscribed` settles; a rejected registration makes
every body a no-op whose promise carries the registration error.  `next()`
pulls while listening and otherwise behaves as `return()` (line 150);
`return()` and `throw(e)` run `emptyQueue` over the held ids. -/
def bstep (b : Bridge) (op : BOp) : Bridge × BOut :=
  match b.reg with
  | .error e => (b, .regErr e)
  | .ok subs =>
    match op with
    | .push v =>
      let r := pushValue b.st v
      ({ b with st := r.1 }, .pushed r.2)
    | .next t =>
      if b.st.listening then
        let r := pullValue b.st t
        ({ b with st := r.1 }, r.2)
      else
        let r := emptyQueue subs b.st
        ({ b with st := r.1 }, .closedDone r.2.1 r.2.2)
    | .ret =>
      let r := emptyQueue subs b.st
      ({ b with st := r.1 }, .closedDone r.2.1 r.2.2)
    | .throwErr e =>
      let r := emptyQueue subs b.st
      ({ b with st := r.1 }, .threw e r.2.1 r.2.2)

/-- Run a trace of operations on a bridge. -/
def bsteps (b : Bridge) : List BOp → Bridge
  | [] => b
  | op :: ops => bsteps (bstep b op).1 ops

/-- A bridge whose registration resolved with the ids `subs`, after a trace
of operations. -/
def brun (subs : List Nat) (ops : List BOp) : Bridge :=
  bsteps { reg := .ok subs, st := initB } ops

/-- A bridge whose registration rejected with `e`, after a trace of
operations. -/
def brunErr (e : Nat) (ops : List BOp) : Bridge :=
  bsteps { reg := .error e, st := initB } ops

/-!
Sequential executions: the restriction of the interleaving semantics in
which each first-subscriber broker round trip resolves before any further
operation on the same name is issued (the round-trip continuation runs
immediately after the synchronous prefix).
-/

/-- A sequential operation: a `subscribe` whose round trip (when one is
started) resolves immediately, or an `unsubscribe`. -/
inductive SOp where
  | ssub
  | sunsub (id : Nat)
deriving DecidableEq, Repr

/-- One sequential operation: the synchronous prefix of `subscribe`
followed, when it started a round trip, by that round trip's continuation;
or an `unsubscribe`. -/
def sstep (s : EngineState) : SOp → EngineState
  | .ssub =>
    let r := subscribeStep s
    match r.2 with
    | .subscribed id true => (resolveStep r.1 id).1
    | _ => r.1
  | .sunsub id => (unsubscribeStep s id).1

/-- Run a sequential trace from a state. -/
def stepsS (s : EngineState) : List SOp → EngineState
  | [] => s
  | op :: ops => stepsS (sstep s op) ops

/-- Run a sequential trace from the initial engine state. -/
def runS (ops : List SOp) : EngineState := stepsS initE ops

/-!
Well-formedness of reachable engine states: every id ever stored comes from
the monotone counter, so the stored ids are below `nextId` and pairwise
distinct.
-/

/-- Ids in the listener-record table and in the entry are below the counter
and appear at most once. -/
def WFE (s : EngineState) : Prop :=
  s.records.Nodup ∧ (∀ i ∈ s.records, i < s.nextId) ∧
  (entryIds s).Nodup ∧ (∀ i ∈ entryIds s, i < s.nextId)

theorem subscribeStep_records (s : EngineState) :
    (subscribeStep s).1.records = s.records ++ [s.nextId] := by
  simp only [subscribeStep]
  split <;> rfl

theorem subscribeStep_entryIds (s : EngineState) :
    entryIds (subscribeStep s).1 = entryIds s ++ [s.nextId] := by
  simp only [subscribeStep]
  split <;> rfl

theorem subscribeStep_nextId (s : EngineState) :
    (subscribeStep s).1.nextId = s.nextId + 1 := by
  simp only [subscribeStep]
  split <;> rfl

theorem resolveStep_records (s : EngineState) (id : Nat) :
    (resolveStep s id).1.records = s.records := by
  simp only [resolveStep]
  split
  · cases s.entry with
    | none => rfl
    | some e =>
      simp only
      split <;> rfl
  · rfl

theorem resolveStep_entryIds (s : EngineState) (id : Nat) :
    entryIds (resolveStep s id).1 = entryIds s := by
  simp only [resolveStep]
  split
  · cases he : s.entry with
    | none => simp [entryIds, he]
    | some e =>
      simp only
      split <;> simp [entryIds, he]
  · rfl

theorem resolveStep_nextId (s : EngineState) (id : Nat) :
    (resolveStep s id).1.nextId = s.nextId := by
  simp only [resolveStep]
  split
  · cases s.entry with
    | none => rfl
    | some e =>
      simp only
      split <;> rfl
  · rfl

theorem wfe_subscribeStep (s : EngineState) (h : WFE s) :
    WFE (subscribeStep s).1 := by
  obtain ⟨h1, h2, h3, h4⟩ := h
  have hrec : s.nextId ∉ s.records := fun hm => absurd (h2 _ hm) (lt_irrefl _)
  have hids : s.nextId ∉ entryIds s := fun hm => absurd (h4 _ hm) (lt_irrefl _)
  refine ⟨?_, ?_, ?_, ?_⟩
  · rw [subscribeStep_records]
    simp [List.nodup_append, h1, hrec]
  · rw [subscribeStep_records, subscribeStep_nextId]
    intro i hi
    rcases List.mem_append.mp hi with hi | hi
    · exact Nat.lt_succ_of_lt (h2 i hi)
    · simp at hi
      omega
  · rw [subscribeStep_entryIds]
    simp [List.nodup_append, h3, hids]
  · rw [subscribeStep_entryIds, subscribeStep_nextId]
    intro i hi
    rcases List.mem_append.mp hi with hi | hi
    · exact Nat.lt_succ_of_lt (h4 i hi)
    · simp at hi
      omega

theorem wfe_resolveStep (s : EngineState) (id : Nat) (h : WFE s) :
    WFE (resolveStep s id).1 := by
  obtain ⟨h1, h2, h3, h4⟩ := h
  refine ⟨?_, ?_, ?_, ?_⟩
  · rw [resolveStep_records]
    exact h1
  · rw [resolveStep_records, resolveStep_nextId]
    exact h2
  · rw [resolveStep_entryIds]
    exact h3
  · rw [resolveStep_entryIds, resolveStep_nextId]
    exact h4

theorem wfe_unsubscribeStep (s : EngineState) (id : Nat) (h : WFE s) :
    WFE (unsubscribeStep s id).1 := by
  obtain ⟨h1, h2, h3, h4⟩ := h
  unfold unsubscribeStep
  split
  · cases he : s.entry with
    | none => exact ⟨h1, h2, h3, h4⟩
    | some e =>
      have hids : e.ids.Nodup := by simpa [entryIds, he] using h3
      have hlt : ∀ i ∈ e.ids, i < s.nextId := by simpa [entryIds, he] using h4
      simp only
      split
      · refine ⟨h1.erase id, ?_, by simp [entryIds], by simp [entryIds]⟩
        intro i hi
        exact h2 i (List.mem_of_mem_erase hi)
      · refine ⟨h1.erase id, ?_, ?_, ?_⟩
        · intro i hi
          exact h2 i (List.mem_of_mem_erase hi)
        · simpa [entryIds] using hids.erase id
        · intro i hi
          simp only [entryIds] at hi
          exact hlt i (List.mem_of_mem_erase hi)
  · exact ⟨h1, h2, h3, h4⟩

theorem wfe_stepE (s : EngineState) (op : EOp) (h : WFE s) :
    WFE (stepE s op).1 := by
  cases op with
  | subscribe => exact wfe_subscribeStep s h
  | resolve id => exact wfe_resolveStep s id h
  | unsubscribe id => exact wfe_unsubscribeStep s id h

theorem wfe_stepsE (s : EngineState) (ops : List EOp) (h : WFE s) :
    WFE (stepsE s ops) := by
  induction ops generalizing s with
  | nil => exact h
  | cons op ops ih => exact ih _ (wfe_stepE s op h)

theorem wfe_runE (ops : List EOp) : WFE (runE ops) :=
  wfe_stepsE initE ops (by refine ⟨?_, ?_, ?_, ?_⟩ <;> simp [initE, entryIds])

/-- Claim C3: for every reachable engine state and every broker message
dispatched through the attached handler with a completing common-message
transform, the transform is applied exactly once and the delivery callbacks
of exactly the listener ids registered in the entry when the transform
completes are invoked, each exactly once (the ids, hence the deliver events,
are pairwise distinct), all with the same transformed value, in the entry's
insertion (listener-registration) order, within the one synchronous
fan-out of `handleMessage`. -/
theorem C3_dispatch_fanout (tr : List EOp) (g : Nat → Nat) (msg : Nat) :
    (handleMessage (fun m => Except.ok (g m)) (runE tr) msg).events =
      [HEv.ack, HEv.transformRun] ++
        (entryIds (runE tr)).map (fun i => HEv.deliver i (g msg)) ∧
    ((entryIds (runE tr)).map (fun i => HEv.deliver i (g msg))).Nodup ∧
    (handleMessage (fun m => Except.ok (g m)) (runE tr) msg).events.count
      HEv.transformRun = 1 := by
  have hw := wfe_runE tr
  refine ⟨rfl, ?_, ?_⟩
  · refine hw.2.2.1.map ?_
    intro a b hab
    simpa using hab
  · have hno : HEv.transformRun ∉
        (entryIds (runE tr)).map (fun i => HEv.deliver i (g msg)) := by
      simp
    simp [handleMessage, List.count_append, List.count_eq_zero.mpr hno]

/-- Claim C9: every message-handler invocation acknowledges the message
exactly once, as its first action — before the common-message transform runs
and before any delivery callback is invoked — for every engine state
(including one with no remaining listeners) and every transform outcome
(including a throwing or rejecting transform). -/
theorem C9_ack_first (f : Nat → Except Nat Nat) (s : EngineState) (msg : Nat) :
    (handleMessage f s msg).events.take 2 = [HEv.ack, HEv.transformRun] ∧
    (handleMessage f s msg).events.count HEv.ack = 1 := by
  cases hf : f msg with
  | ok v =>
    have hno : HEv.ack ∉ (entryIds s).map (fun i => HEv.deliver i v) := by simp
    refine ⟨by simp [handleMessage, hf], ?_⟩
    simp [handleMessage, hf, List.count_append, List.count_eq_zero.mpr hno]
  | error e => exact ⟨by simp [handleMessage, hf], by simp [handleMessage, hf]⟩

/-- Claim C5 counterexample: with listener id 0 registered and attached, a
transform that rejects with error 3 leaves the handler's promise rejected
(`outcome = .error 3`, the rejection is not caught) and logs nothing
(`logged = []`), contradicting the claim that the error is caught and
logged; the absence of `deliver` events shows no listener received the
message. -/
theorem C5_counterexample :
    entryIds (runE [EOp.subscribe, EOp.resolve 0]) = [0] ∧
    handleMessage (fun _ => Except.error 3) (runE [EOp.subscribe, EOp.resolve 0]) 9 =
      { events := [HEv.ack, HEv.transformRun],
        outcome := Except.error 3,
        logged := [] } :=
  ⟨rfl, rfl⟩

/-- Claim C5 amended: when the common-message transform throws or rejects,
no registered listener's delivery callback receives the message, but the
error is neither caught nor logged by the engine — the message handler's
promise rejects with the transform's error (there is no try/catch and no
log call on this path). -/
theorem C5_amended (f : Nat → Except Nat Nat) (s : EngineState) (msg e : Nat)
    (h : f msg = Except.error e) :
    (handleMessage f s msg).outcome = Except.error e ∧
    (handleMessage f s msg).logged = [] ∧
    (handleMessage f s msg).events = [HEv.ack, HEv.transformRun] := by
  simp [handleMessage, h]

/-- Witness for `C5_amended` at the always-rejecting transform, the initial
engine state and message 0. -/
theorem C5_amended_witness :
    (handleMessage (fun _ => Except.error 3) initE 0).outcome = Except.error 3 :=
  (C5_amended (fun _ => Except.error 3) initE 0 3 rfl).1

/-- Claim C2 (code bug): subscribe (the round trip starts for listener id
0), unsubscribe id 0 before the round trip resolves, then let it resolve.
The entry ends up absent, no handler was ever attached
(`attachCount = 0`) — but the pending subscribe promise rejects with the
TypeError raised by reading `.ids.length` of the deleted entry
(google-pubsub.ts line 57) instead of resolving to listener id 0 as the
guard's own comment (line 56) intends. -/
theorem C2_pending_unsubscribe_rejects :
    stepsEO initE [EOp.subscribe, EOp.unsubscribe 0, EOp.resolve 0] =
      ({ records := [], entry := none, nextId := 1, pending := [],
         attachCount := 0, detachCount := 0, upCount := 1, downCount := 1 },
       [EOutcome.subscribed 0 true,
        EOutcome.unsubbed (Except.ok ()),
        EOutcome.settled (Except.error EErr.typeError)]) := rfl

/-- Claim C1 counterexample: subscribe (id 0, round trip pending),
unsubscribe 0 (the entry is deleted, nothing was attached), subscribe again
(id 1, a second round trip starts while the first is still pending), then
both round trips resolve — each one re-reads the recreated entry, finds the
non-empty listener list `[1]` and attaches a message handler — and finally
unsubscribe 1 detaches once.  At quiescence (no listeners, no pending round
trips) there have been 2 attaches and 1 detach, though both counts of 0→1
and 1→0 listener transitions are 2: attach and detach counts differ and
detach did not occur once per 1→0 transition. -/
theorem C1_counterexample :
    runE [EOp.subscribe, EOp.unsubscribe 0, EOp.subscribe,
      EOp.resolve 0, EOp.resolve 1, EOp.unsubscribe 1] =
      { records := [], entry := none, nextId := 2, pending := [],
        attachCount := 2, detachCount := 1, upCount := 2, downCount := 2 } :=
  rfl

/-!
Invariant of sequential executions: when each first-subscriber round trip
resolves before any further operation on the name, attaches and detaches
track the 0→1 and 1→0 listener-count transitions exactly.
-/

/-- Invariant of sequential executions: no round trip is pending, a present
entry has a non-empty id list with handlers attached, the record table
mirrors the entry's id list, attaches count the 0→1 transitions, detaches
count the 1→0 transitions, and the transition counts differ by one exactly
while a listener is registered. -/
def SeqInv (s : EngineState) : Prop :=
  s.pending = [] ∧
  (∀ e, s.entry = some e → e.ids ≠ [] ∧ e.attached = true) ∧
  s.records = entryIds s ∧
  s.attachCount = s.upCount ∧
  s.detachCount = s.downCount ∧
  s.upCount = s.downCount + (if listenerCount s = 0 then 0 else 1)

theorem seqInv_init : SeqInv initE := by
  refine ⟨rfl, ?_, rfl, rfl, rfl, ?_⟩ <;> simp [initE, entryIds, listenerCount]

theorem seqInv_sstep (s : EngineState) (op : SOp) (h : SeqInv s) :
    SeqInv (sstep s op) := by
  obtain ⟨hp, he, hr, ha, hd, hu⟩ := h
  cases op with
  | ssub =>
    cases hent : s.entry with
    | none =>
      have hids : entryIds s = [] := by simp [entryIds, hent]
      have hcnt : listenerCount s = 0 := by simp [listenerCount, hids]
      rw [hcnt] at hu
      rw [hids] at hr
      simp only [sstep, subscribeStep, resolveStep, hent, hp, hids]
      simp only [List.length_nil, List.isEmpty_nil, List.nil_append, gt_iff_lt,
        Nat.lt_irrefl, if_false, if_true]
      refine ⟨?_, ?_, ?_, ?_, ?_, ?_⟩ <;>
        simp_all [SeqInv, entryIds, listenerCount]
    | some e =>
      obtain ⟨hne, hatt⟩ := he e hent
      have hids : entryIds s = e.ids := by simp [entryIds, hent]
      have hlen : 0 < e.ids.length := List.length_pos.mpr hne
      have hcnt : listenerCount s = e.ids.length := by simp [listenerCount, hids]
      rw [hcnt] at hu
      rw [hids] at hr
      have hemp : e.ids.isEmpty = false := by
        cases hl : e.ids with
        | nil => exact absurd hl hne
        | cons a l => rfl
      simp only [sstep, subscribeStep, hent, hids, hemp, gt_iff_lt, hlen, if_true,
        Bool.false_eq_true, if_false]
      refine ⟨hp, ?_, ?_, ha, hd, ?_⟩
      · intro e' he'
        simp only [Option.some.injEq] at he'
        subst he'
        simp [hatt]
      · simp [hr, entryIds]
      · simp only [entryIds, listenerCount, List.length_append, List.length_cons,
          List.length_nil]
        split_ifs at hu ⊢
        all_goals first | omega | simp_all
  | sunsub id =>
    by_cases hmem : id ∈ s.records
    · cases hent : s.entry with
      | none =>
        have hids : entryIds s = [] := by simp [entryIds, hent]
        rw [hr, hids] at hmem
        simp at hmem
      | some e =>
        obtain ⟨hne, hatt⟩ := he e hent
        have hids : entryIds s = e.ids := by simp [entryIds, hent]
        have hmem' : id ∈ e.ids := by rwa [hr, hids] at hmem
        have hcnt : listenerCount s = e.ids.length := by simp [listenerCount, hids]
        have hlen : 0 < e.ids.length := List.length_pos.mpr hne
        rw [hcnt] at hu
        rw [hids] at hr
        by_cases hone : e.ids.length = 1
        · obtain ⟨a, hae⟩ := List.length_eq_one.mp hone
          have hia : id = a := by
            rw [hae] at hmem'
            simpa using hmem'
          have hsing : e.ids = [id] := by rw [hae, hia]
          simp only [sstep, unsubscribeStep, hmem, if_true, hent, hone, hatt]
          refine ⟨hp, ?_, ?_, ha, by simp [hd], ?_⟩
          · intro e' he'
            simp at he'
          · simp [hr, hsing, entryIds]
          · simp only [entryIds, listenerCount, List.length_nil]
            split_ifs at hu ⊢ <;> omega
        · have herl : (e.ids.erase id).length = e.ids.length - 1 :=
            List.length_erase_of_mem hmem'
          have hlen2 : 2 ≤ e.ids.length := by
            rcases Nat.lt_or_ge e.ids.length 2 with h2 | h2
            · omega
            · exact h2
          simp only [sstep, unsubscribeStep, hmem, if_true, hent, hone, if_false]
          refine ⟨hp, ?_, ?_, ha, hd, ?_⟩
          · intro e' he'
            simp only [Option.some.injEq] at he'
            subst he'
            refine ⟨?_, hatt⟩
            have : 0 < (e.ids.erase id).length := by omega
            exact List.length_pos.mp this
          · simp [hr, entryIds]
          · simp only [entryIds, listenerCount, herl]
            split_ifs at hu ⊢ <;> omega
    · simp only [sstep, unsubscribeStep, hmem, if_false]
      exact ⟨hp, he, hr, ha, hd, hu⟩

theorem seqInv_stepsS (s : EngineState) (ops : List SOp) (h : SeqInv s) :
    SeqInv (stepsS s ops) := by
  induction ops generalizing s with
  | nil => exact h
  | cons op ops ih => exact ih _ (seqInv_sstep s op h)

/-- Claim C1 amended: in executions restricted so that each first-subscriber
broker round trip resolves before any further subscribe/unsubscribe on the
same derived name, message-handler attaches occur exactly once per 0→1
listener transition, detaches exactly once per 1→0 transition, and whenever
no listener is registered (in particular after every listener has departed)
the attach and detach counts are equal.  (Unrestricted interleavings
falsify the original claim: see the counterexample, where a subscribe
arriving while an earlier round trip is still pending yields two attaches
but one detach.) -/
theorem C1_amended_sequential (ops : List SOp) :
    (runS ops).attachCount = (runS ops).upCount ∧
    (runS ops).detachCount = (runS ops).downCount ∧
    (listenerCount (runS ops) = 0 →
      (runS ops).attachCount = (runS ops).detachCount) := by
  obtain ⟨-, -, -, ha, hd, hu⟩ := seqInv_stepsS initE ops seqInv_init
  simp only [runS]
  refine ⟨ha, hd, fun hc => ?_⟩
  simp only [runS] at hc
  rw [ha, hd, hu, hc]
  simp

/-- Witness for `C1_amended_sequential` on the trace subscribe, unsubscribe:
at quiescence the counts agree. -/
theorem C1_amended_sequential_witness :
    (runS [SOp.ssub, SOp.sunsub 0]).attachCount =
      (runS [SOp.ssub, SOp.sunsub 0]).detachCount :=
  (C1_amended_sequential [SOp.ssub, SOp.sunsub 0]).2.2 rfl

/-!
Claim C8: unsubscribe with an unknown id.
-/

theorem nodup_not_mem_erase (a : Nat) (l : List Nat) (h : l.Nodup) :
    a ∉ l.erase a := by
  induction l with
  | nil => simp
  | cons b l ih =>
    rw [List.nodup_cons] at h
    by_cases hab : b = a
    · subst hab
      rw [List.erase_cons_head]
      exact h.1
    · rw [List.erase_cons_tail (by simp [hab])]
      intro hmem
      rcases List.mem_cons.mp hmem with hmem | hmem
      · exact hab hmem.symm
      · exact ih h.2 hmem

theorem unsub_not_mem (s : EngineState) (id : Nat) (h : id ∉ s.records) :
    unsubscribeStep s id =
      (s, EOutcome.unsubbed (Except.error EErr.noSuchListener)) := by
  simp [unsubscribeStep, h]

/-- Claim C8: on every reachable engine state, `unsubscribe` with an id that
has no listener record — never issued, or already removed — fails
synchronously with the no-such-listener error and leaves the whole state
(listener records and physical-subscription entry included) unchanged;
moreover a second consecutive `unsubscribe` of the same id always fails that
way (a successful unsubscribe removes the record, so the repeat finds the id
unknown), so the call never succeeds silently. -/
theorem C8_unknown_unsubscribe (tr : List EOp) (id : Nat) :
    (id ∉ (runE tr).records →
      unsubscribeStep (runE tr) id =
        (runE tr, EOutcome.unsubbed (Except.error EErr.noSuchListener))) ∧
    unsubscribeStep (unsubscribeStep (runE tr) id).1 id =
      ((unsubscribeStep (runE tr) id).1,
       EOutcome.unsubbed (Except.error EErr.noSuchListener)) := by
  have hw := wfe_runE tr
  refine ⟨fun h => unsub_not_mem _ _ h, ?_⟩
  by_cases hmem : id ∈ (runE tr).records
  · cases hent : (runE tr).entry with
    | none =>
      have h1 : unsubscribeStep (runE tr) id =
          (runE tr, EOutcome.unsubbed (Except.error EErr.noSuchListener)) := by
        simp [unsubscribeStep, hmem, hent]
      rw [h1]
      exact h1
    | some e =>
      have hnotmem : id ∉ (runE tr).records.erase id :=
        nodup_not_mem_erase id _ hw.1
      have h1 : (unsubscribeStep (runE tr) id).1.records =
          (runE tr).records.erase id := by
        simp only [unsubscribeStep, hmem, if_true, hent]
        split <;> rfl
      exact unsub_not_mem _ _ (by rw [h1]; exact hnotmem)
  · rw [unsub_not_mem _ _ hmem]
    exact unsub_not_mem _ _ hmem

/-- Witness for `C8_unknown_unsubscribe` on the empty trace and the
never-issued id 5. -/
theorem C8_unknown_unsubscribe_witness :
    unsubscribeStep (runE []) 5 =
      (runE [], EOutcome.unsubbed (Except.error EErr.noSuchListener)) :=
  (C8_unknown_unsubscribe [] 5).1 (by decide)

/-!
Bridge lemmas: registration is never mutated, the mutual-exclusion and
closed-queue invariants are preserved by every operation.
-/

theorem bstep_reg (b : Bridge) (op : BOp) : (bstep b op).1.reg = b.reg := by
  rcases b with ⟨reg, ⟨pq, sq, l⟩⟩
  cases reg with
  | error e => rfl
  | ok subs =>
    cases op with
    | push v => cases pq <;> rfl
    | next t => cases l <;> cases sq <;> rfl
    | ret => cases l <;> rfl
    | throwErr e => cases l <;> rfl

theorem bsteps_reg (b : Bridge) (ops : List BOp) : (bsteps b ops).reg = b.reg := by
  induction ops generalizing b with
  | nil => rfl
  | cons op ops ih => rw [bsteps, ih, bstep_reg]

/-- At most one of the two queues is non-empty. -/
def QInv (b : Bridge) : Prop := b.st.pullQueue = [] ∨ b.st.pushQueue = []

theorem qinv_bstep (b : Bridge) (op : BOp) (h : QInv b) : QInv (bstep b op).1 := by
  rcases b with ⟨reg, ⟨pq, sq, l⟩⟩
  cases reg with
  | error e => exact h
  | ok subs =>
    cases op with
    | push v =>
      cases pq with
      | nil => exact Or.inl rfl
      | cons t rest =>
        rcases h with h | h
        · exact absurd h (List.cons_ne_nil t rest)
        · exact Or.inr h
    | next t =>
      cases l with
      | false => exact h
      | true =>
        cases sq with
        | nil => exact Or.inr rfl
        | cons v rest =>
          rcases h with h | h
          · exact Or.inl h
          · exact absurd h (List.cons_ne_nil v rest)
    | ret =>
      cases l with
      | false => exact h
      | true => exact Or.inl rfl
    | throwErr e =>
      cases l with
      | false => exact h
      | true => exact Or.inl rfl

theorem qinv_bsteps (b : Bridge) (ops : List BOp) (h : QInv b) :
    QInv (bsteps b ops) := by
  induction ops generalizing b with
  | nil => exact h
  | cons op ops ih => exact ih _ (qinv_bstep b op h)

/-- A closed session has no pending pulls. -/
def CInv (b : Bridge) : Prop := b.st.listening = false → b.st.pullQueue = []

theorem cinv_bstep (b : Bridge) (op : BOp) (h : CInv b) : CInv (bstep b op).1 := by
  rcases b with ⟨reg, ⟨pq, sq, l⟩⟩
  cases reg with
  | error e => exact h
  | ok subs =>
    cases op with
    | push v =>
      cases pq with
      | nil => exact fun _ => rfl
      | cons t rest => exact fun hl => absurd (h hl) (List.cons_ne_nil t rest)
    | next t =>
      cases l with
      | false => exact h
      | true =>
        cases sq with
        | nil => exact fun hl => by cases hl
        | cons v rest => exact fun hl => by cases hl
    | ret =>
      cases l with
      | false => exact h
      | true => exact fun _ => rfl
    | throwErr e =>
      cases l with
      | false => exact h
      | true => exact fun _ => rfl

theorem cinv_bsteps (b : Bridge) (ops : List BOp) (h : CInv b) :
    CInv (bsteps b ops) := by
  induction ops generalizing b with
  | nil => exact h
  | cons op ops ih => exact ih _ (cinv_bstep b op h)

/-- Claim C4: on every reachable bridge, at most one of the two queues is
non-empty; a push with a pending pull resolves the oldest pull with the
value (`done: false`) and buffers nothing, and a `next()` with a buffered
push consumes the oldest buffered value and enqueues no pull — so the
invariant is preserved by every operation (`next`, `onPush`/`pushValue`,
`return`, `throw`), as the quantification over arbitrary traces states. -/
theorem C4_queue_mutual_exclusion (subs : List Nat) (ops : List BOp) :
    ((brun subs ops).st.pullQueue = [] ∨ (brun subs ops).st.pushQueue = []) ∧
    (∀ v t rest, (brun subs ops).st.pullQueue = t :: rest →
      (bstep (brun subs ops) (BOp.push v)).2 = BOut.pushed [(t, v)] ∧
      (bstep (brun subs ops) (BOp.push v)).1.st.pullQueue = rest ∧
      (bstep (brun subs ops) (BOp.push v)).1.st.pushQueue =
        (brun subs ops).st.pushQueue) ∧
    (∀ t v rest, (brun subs ops).st.pushQueue = v :: rest →
      (brun subs ops).st.listening = true →
      (bstep (brun subs ops) (BOp.next t)).2 = BOut.gotValue v ∧
      (bstep (brun subs ops) (BOp.next t)).1.st.pushQueue = rest ∧
      (bstep (brun subs ops) (BOp.next t)).1.st.pullQueue =
        (brun subs ops).st.pullQueue) := by
  have hreg : (brun subs ops).reg = Except.ok subs := bsteps_reg _ _
  refine ⟨qinv_bsteps _ _ (Or.inl rfl), ?_, ?_⟩
  · intro v t rest hq
    refine ⟨?_, ?_, ?_⟩ <;> simp [bstep, hreg, pushValue, hq]
  · intro t v rest hq hl
    refine ⟨?_, ?_, ?_⟩ <;> simp [bstep, hreg, pullValue, hq, hl]

/-- Witness for `C4_queue_mutual_exclusion`: after one unsatisfied `next`
the pull queue holds token 0, and a push resolves it immediately. -/
theorem C4_queue_mutual_exclusion_witness :
    (bstep (brun [1] [BOp.next 0]) (BOp.push 9)).2 = BOut.pushed [(0, 9)] :=
  ((C4_queue_mutual_exclusion [1] [BOp.next 0]).2.1 9 0 [] rfl).1

theorem bstep_ret_open (b : Bridge) (subs : List Nat)
    (hr : b.reg = Except.ok subs) (hl : b.st.listening = true) :
    bstep b BOp.ret =
      ({ reg := Except.ok subs,
         st := { pullQueue := [], pushQueue := [], listening := false } },
       BOut.closedDone subs b.st.pullQueue) := by
  simp [bstep, hr, emptyQueue, hl]

theorem bstep_ret_closed (b : Bridge) (subs : List Nat)
    (hr : b.reg = Except.ok subs) (hl : b.st.listening = false) :
    bstep b BOp.ret = (b, BOut.closedDone [] []) := by
  simp [bstep, hr, emptyQueue, hl]
  rw [← hr]

/-- Claim C7: on every reachable bridge, the first `return()` marks the
session closed, deregisters every subscription id the session holds
(`subs`), resolves every still-pending pull with the terminal
`{value: undefined, done: true}` and empties both queues; `return()` on an
already-closed session deregisters nothing, mutates nothing and resolves
the terminal value; and in all cases the call after a `return()` is such a
no-op — `return()` is idempotent. -/
theorem C7_return_idempotent (subs : List Nat) (ops : List BOp) :
    ((brun subs ops).st.listening = true →
      bstep (brun subs ops) BOp.ret =
        ({ reg := Except.ok subs,
           st := { pullQueue := [], pushQueue := [], listening := false } },
         BOut.closedDone subs (brun subs ops).st.pullQueue)) ∧
    ((brun subs ops).st.listening = false →
      bstep (brun subs ops) BOp.ret = (brun subs ops, BOut.closedDone [] [])) ∧
    bstep (bstep (brun subs ops) BOp.ret).1 BOp.ret =
      ((bstep (brun subs ops) BOp.ret).1, BOut.closedDone [] []) := by
  have hreg : (brun subs ops).reg = Except.ok subs := bsteps_reg _ _
  refine ⟨fun hl => bstep_ret_open _ _ hreg hl,
    fun hl => bstep_ret_closed _ _ hreg hl, ?_⟩
  cases hl : (brun subs ops).st.listening with
  | true =>
    rw [bstep_ret_open _ _ hreg hl]
    exact bstep_ret_closed _ subs rfl rfl
  | false =>
    rw [bstep_ret_closed _ _ hreg hl]
    exact bstep_ret_closed _ subs hreg hl

/-- Witness for `C7_return_idempotent` on a fresh bridge over one
subscription id. -/
theorem C7_return_idempotent_witness :
    bstep (brun [3] []) BOp.ret =
      ({ reg := Except.ok [3],
         st := { pullQueue := [], pushQueue := [], listening := false } },
       BOut.closedDone [3] []) :=
  (C7_return_idempotent [3] []).1 rfl

/-- Claim C6 counterexample: after `return()` on a fresh bridge the push
queue is empty, yet a subsequently delivered push is appended to it —
`pushValue` has no `listening` guard, so the push is buffered rather than
dropped and the session's queue state changes. -/
theorem C6_counterexample :
    (brun [7] [BOp.ret]).st.pushQueue = [] ∧
    (bstep (brun [7] [BOp.ret]) (BOp.push 5)).1.st.pushQueue = [5] :=
  ⟨rfl, rfl⟩

/-- Claim C6 amended: on every reachable closed bridge the pull queue is
empty, and a push delivered after close is appended to the push queue
(mutating the session state) while resolving nothing; but it is never
yielded: every subsequent `next()` resolves the terminal
`{value: undefined, done: true}` without touching the queues, and every
operation leaves the session closed, so no buffered-but-unconsumed value is
ever yielded by a later `next()`. -/
theorem C6_amended (subs : List Nat) (ops : List BOp)
    (h : (brun subs ops).st.listening = false) :
    (brun subs ops).st.pullQueue = [] ∧
    (∀ v, (bstep (brun subs ops) (BOp.push v)).2 = BOut.pushed [] ∧
      (bstep (brun subs ops) (BOp.push v)).1.st.pushQueue =
        (brun subs ops).st.pushQueue ++ [v] ∧
      (bstep (brun subs ops) (BOp.push v)).1.st.pullQueue = [] ∧
      (bstep (brun subs ops) (BOp.push v)).1.st.listening = false) ∧
    (∀ t, bstep (brun subs ops) (BOp.next t) =
      (brun subs ops, BOut.closedDone [] [])) ∧
    (∀ op, (bstep (brun subs ops) op).1.st.listening = false) := by
  have hreg : (brun subs ops).reg = Except.ok subs := bsteps_reg _ _
  have hpq : (brun subs ops).st.pullQueue = [] :=
    cinv_bsteps _ _ (fun hl => by cases hl) h
  refine ⟨hpq, ?_, ?_, ?_⟩
  · intro v
    refine ⟨?_, ?_, ?_, ?_⟩ <;> simp [bstep, hreg, pushValue, hpq, h]
  · intro t
    simp [bstep, hreg, h, emptyQueue]
    rw [← hreg]
  · intro op
    cases op with
    | push v => simp [bstep, hreg, pushValue, hpq, h]
    | next t => simp [bstep, hreg, h, emptyQueue]
    | ret => simp [bstep, hreg, h, emptyQueue]
    | throwErr e => simp [bstep, hreg, h, emptyQueue]

/-- Witness for `C6_amended` on a bridge closed by one `return()`. -/
theorem C6_amended_witness : (brun [7] [BOp.ret]).st.pullQueue = [] :=
  (C6_amended [7] [BOp.ret] rfl).1

/-- Claim C10: a bridge whose combined registration rejected with an error
never changes state — no teardown (no deregistration, no queue clearing, the
queues stay empty and the listening flag stays set) runs under any sequence
of operations — and every operation (`next`, `return`, `throw`, and the
engine-side push) has its body skipped and its promise rejected with that
registration error, so no pushed or buffered value is ever yielded. -/
theorem C10_registration_error (e : Nat) (ops : List BOp) (op : BOp) :
    brunErr e ops = { reg := Except.error e, st := initB } ∧
    bstep (brunErr e ops) op =
      ({ reg := Except.error e, st := initB }, BOut.regErr e) := by
  have hfix : brunErr e ops = { reg := Except.error e, st := initB } := by
    induction ops with
    | nil => rfl
    | cons op0 ops ih => exact ih
  refine ⟨hfix, ?_⟩
  rw [hfix]
  rfl

end GPubSub
